import Mathlib

/-!
Verification of the arcs relay server against its specification.

The C++ components are shallowly embedded as pure Lean functions:
`std::map` / `std::unordered_map` containers become association lists
(`List (String × α)`), clock readings become explicit time parameters
(rationals for the rate limiter's fractional seconds, integers for the
second-granularity session and JWT clocks), and in-place mutation becomes
explicit state passing.  Definitions follow the source files under
`src/server/src` function by function.
-/

set_option autoImplicit false

namespace Arcs

/-! Association-list primitives shared by all embedded components.
`setKey` is assignment through `operator[]` (replace the binding if the key
is present, append it otherwise); `getKey?` is `find` returning the mapped
value; `eraseKey` is `erase`. -/

def setKey {α : Type} (m : List (String × α)) (k : String) (v : α) :
    List (String × α) :=
  match m with
  | [] => [(k, v)]
  | (k', v') :: rest =>
      if k' = k then (k, v) :: rest else (k', v') :: setKey rest k v

def getKey? {α : Type} (m : List (String × α)) (k : String) : Option α :=
  match m with
  | [] => none
  | (k', v') :: rest => if k' = k then some v' else getKey? rest k

def eraseKey {α : Type} (m : List (String × α)) (k : String) :
    List (String × α) :=
  m.filter (fun kv => kv.1 ≠ k)

/-! Rate limiter, from `src/server/src/security/rate_limiter.{h,cpp}`.
Token counts are `double` in the source; they are embedded as rationals,
and the monotonic `steady_clock` readings as rational seconds. -/

structure Bucket where
  tokens : ℚ
  max_tokens : ℚ
  refill_rate : ℚ
  last_update : ℚ
deriving Repr, DecidableEq

abbrev RateLimiterState := List (String × Bucket)

namespace Limits

def TOUCH_MAX : ℚ := 100
def TEXT_MAX : ℚ := 10
def MACRO_MAX : ℚ := 1
def OCR_MAX : ℚ := 2
def AUTH_MAX : ℚ := 5

end Limits

/-- `RateLimiter::refill_bucket`: add `elapsed * refill_rate` tokens, capped
at `max_tokens`, and stamp `last_update` with the current time. -/
def refill_bucket (now : ℚ) (b : Bucket) : Bucket :=
  let elapsed := now - b.last_update
  { b with
      tokens := min b.max_tokens (b.tokens + elapsed * b.refill_rate)
      last_update := now }

/-- `RateLimiter::check_and_consume`: create a full bucket when the key is
unknown, refill lazily, then deduct one token when at least one is held. -/
def check_and_consume (st : RateLimiterState) (key : String)
    (max_tokens refill_rate : ℚ) (now : ℚ) : Bool × RateLimiterState :=
  let b0 : Bucket :=
    match getKey? st key with
    | some b => b
    | none =>
        { tokens := max_tokens, max_tokens := max_tokens,
          refill_rate := refill_rate, last_update := now }
  let b := refill_bucket now b0
  if 1 ≤ b.tokens then
    (true, setKey st key { b with tokens := b.tokens - 1 })
  else
    (false, setKey st key b)

def allow_touch (st : RateLimiterState) (session_id : String) (now : ℚ) :
    Bool × RateLimiterState :=
  check_and_consume st (session_id ++ ":touch") Limits.TOUCH_MAX
    Limits.TOUCH_MAX now

def allow_text (st : RateLimiterState) (session_id : String) (now : ℚ) :
    Bool × RateLimiterState :=
  check_and_consume st (session_id ++ ":text") Limits.TEXT_MAX
    Limits.TEXT_MAX now

def allow_macro (st : RateLimiterState) (session_id : String) (now : ℚ) :
    Bool × RateLimiterState :=
  check_and_consume st (session_id ++ ":macro") Limits.MACRO_MAX
    Limits.MACRO_MAX now

def allow_ocr (st : RateLimiterState) (session_id : String) (now : ℚ) :
    Bool × RateLimiterState :=
  check_and_consume st (session_id ++ ":ocr") Limits.OCR_MAX
    Limits.OCR_MAX now

/-- `RateLimiter::allow_auth`: the auth limit is per minute, so the refill
rate is divided by 60. -/
def allow_auth (st : RateLimiterState) (device_id : String) (now : ℚ) :
    Bool × RateLimiterState :=
  check_and_consume st (device_id ++ ":auth") Limits.AUTH_MAX
    (Limits.AUTH_MAX / 60) now

/-- String prefix test: `s.find(p) == 0` in `std::string` terms. -/
def strHasPrefix (p s : String) : Bool :=
  p.data.isPrefixOf s.data

/-- `RateLimiter::reset_session`: erase every bucket whose composite key has
the given id at position 0 (`it->first.find(session_id) == 0`). -/
def reset_session (st : RateLimiterState) (session_id : String) :
    RateLimiterState :=
  st.filter (fun kv => ! strHasPrefix session_id kv.1)

/-- Drives a sequence of `check_and_consume` calls for one composite key at
the given call times, counting the granted calls. -/
def allowSeq (key : String) (cap rate : ℚ) :
    RateLimiterState → List ℚ → Nat × RateLimiterState
  | st, [] => (0, st)
  | st, t :: ts =>
      let r := check_and_consume st key cap rate t
      let rest := allowSeq key cap rate r.2 ts
      ((if r.1 then 1 else 0) + rest.1, rest.2)

/-! Session manager, from `src/server/src/websocket/session_manager.{h,cpp}`.
`system_clock` timestamps are embedded as integer seconds, which is the
granularity at which `Session::is_expired` compares them
(`duration_cast<std::chrono::seconds>`). -/

structure Session where
  session_id : String
  device_id : String
  controller_id : String
  created_at : Int
  last_activity : Int
  is_active : Bool
deriving Repr, DecidableEq

/-- `Session::is_expired`: idle for strictly more than 300 seconds. -/
def Session.is_expired (s : Session) (now : Int) : Bool :=
  300 < now - s.last_activity

abbrev SessionState := List (String × Session)

/-- `SessionManager::create_session`.  The `uuid_generate` call is embedded
as the explicit `fresh_id` argument; a default-constructed `std::string`
leaves `controller_id` empty. -/
def create_session (st : SessionState) (device_id fresh_id : String)
    (now : Int) : String × SessionState :=
  match st.find? (fun kv => kv.2.device_id == device_id && kv.2.is_active) with
  | some kv => (kv.1, st)
  | none =>
      let s : Session :=
        { session_id := fresh_id, device_id := device_id, controller_id := "",
          created_at := now, last_activity := now, is_active := true }
      (fresh_id, setKey st fresh_id s)

/-- `SessionManager::join_session`: fails when the session is missing or
inactive; otherwise overwrites `controller_id` and refreshes
`last_activity`. -/
def join_session (st : SessionState) (session_id controller_id : String)
    (now : Int) : Bool × SessionState :=
  match getKey? st session_id with
  | none => (false, st)
  | some s =>
      if s.is_active then
        (true, setKey st session_id
          { s with controller_id := controller_id, last_activity := now })
      else
        (false, st)

/-- `SessionManager::get_session`. -/
def get_session (st : SessionState) (session_id : String) : Option Session :=
  getKey? st session_id

/-- `SessionManager::update_activity`. -/
def update_activity (st : SessionState) (session_id : String) (now : Int) :
    SessionState :=
  match getKey? st session_id with
  | none => st
  | some s => setKey st session_id { s with last_activity := now }

/-- `SessionManager::close_session`: marks the record inactive and erases it
from the map (the `is_active = false` write on the erased record is not
observable through the manager afterwards). -/
def close_session (st : SessionState) (session_id : String) :
    Bool × SessionState :=
  match getKey? st session_id with
  | none => (false, st)
  | some _ => (true, eraseKey st session_id)

/-- `SessionManager::get_session_by_device`: first active session whose
`device_id` matches. -/
def get_session_by_device (st : SessionState) (device_id : String) :
    Option Session :=
  (st.find? (fun kv => kv.2.device_id == device_id && kv.2.is_active)).map
    (fun kv => kv.2)

/-- `SessionManager::get_session_by_controller`: first active session whose
`controller_id` matches. -/
def get_session_by_controller (st : SessionState) (controller_id : String) :
    Option Session :=
  (st.find? (fun kv => kv.2.controller_id == controller_id && kv.2.is_active)).map
    (fun kv => kv.2)

/-- `SessionManager::cleanup_expired`: erase every expired session. -/
def cleanup_expired (st : SessionState) (now : Int) : SessionState :=
  st.filter (fun kv => ! kv.2.is_expired now)

/-! Stream router, from `src/server/src/stream/stream_router.{h,cpp}`.
A frame buffer (`std::vector<uint8_t>`) is embedded as a list of bytes and a
`std::queue` as a list with its front at the head. -/

abbrev Frame := List Nat

def MAX_QUEUE_SIZE : Nat := 30

structure StreamStats where
  total_frames : Nat
  total_bytes : Nat
  dropped_frames : Nat
  avg_frame_size : ℚ
deriving Repr, DecidableEq

structure StreamEndpoint where
  session_id : String
  device_id : String
  controller_ids : List String
  frame_queues : List (String × List Frame)
  stats : StreamStats
deriving Repr, DecidableEq

/-- Queue access through `frame_queues[controller_id]`: a missing entry
reads as a default-constructed (empty) queue. -/
def getQueue (qs : List (String × List Frame)) (c : String) : List Frame :=
  (getKey? qs c).getD []

/-- The per-controller loop of `StreamRouter::route_frame`: when a queue
already holds `MAX_QUEUE_SIZE` entries, pop the oldest frame and count one
drop, then push the new frame. -/
def route_loop (frame : Frame) :
    List String → List (String × List Frame) → Nat →
      List (String × List Frame) × Nat
  | [], qs, dropped => (qs, dropped)
  | c :: cs, qs, dropped =>
      let q := getQueue qs c
      let step : List Frame × Nat :=
        if MAX_QUEUE_SIZE ≤ q.length then (q.tail, dropped + 1)
        else (q, dropped)
      route_loop frame cs (setKey qs c (step.1 ++ [frame])) step.2

/-- `StreamRouter::register_device`. -/
def register_device (st : List (String × StreamEndpoint))
    (session_id device_id : String) : List (String × StreamEndpoint) :=
  match getKey? st session_id with
  | some _ => st
  | none =>
      setKey st session_id
        { session_id := session_id, device_id := device_id,
          controller_ids := [], frame_queues := [],
          stats := ⟨0, 0, 0, 0⟩ }

/-- `StreamRouter::register_controller`. -/
def register_controller (st : List (String × StreamEndpoint))
    (session_id controller_id : String) : List (String × StreamEndpoint) :=
  match getKey? st session_id with
  | none => st
  | some ep =>
      setKey st session_id
        { ep with
            controller_ids := ep.controller_ids ++ [controller_id]
            frame_queues := setKey ep.frame_queues controller_id [] }

/-- `StreamRouter::route_frame`: update the stats, then fan the frame out to
every attached controller's queue. -/
def route_frame (st : List (String × StreamEndpoint)) (session_id : String)
    (frame : Frame) : List (String × StreamEndpoint) :=
  match getKey? st session_id with
  | none => st
  | some ep =>
      let tf := ep.stats.total_frames + 1
      let tb := ep.stats.total_bytes + frame.length
      let r := route_loop frame ep.controller_ids ep.frame_queues
        ep.stats.dropped_frames
      setKey st session_id
        { ep with
            frame_queues := r.1
            stats :=
              { total_frames := tf, total_bytes := tb,
                dropped_frames := r.2,
                avg_frame_size := (tb : ℚ) / (tf : ℚ) } }

/-- `StreamRouter::get_frame`: non-blocking pop from one controller queue. -/
def get_frame (st : List (String × StreamEndpoint))
    (session_id controller_id : String) :
    Option Frame × List (String × StreamEndpoint) :=
  match getKey? st session_id with
  | none => (none, st)
  | some ep =>
      match getKey? ep.frame_queues controller_id with
      | none => (none, st)
      | some [] => (none, st)
      | some (f :: rest) =>
          (some f, setKey st session_id
            { ep with frame_queues := setKey ep.frame_queues controller_id rest })

/-! JWT manager, from `src/server/src/auth/jwt_manager.{h,cpp}`.
A serialized token is embedded as the record of claims set by
`generate_token` together with the HMAC-SHA256 key it was signed with; the
ideal-MAC reading of HS256 makes `verify` succeed exactly when the stored
key equals the manager's secret.  `system_clock` readings are integer
seconds.  The `permissions` argument is accepted and, as in the source,
placed in no claim. -/

structure Token where
  issuer : String
  subject : String
  device_id : String
  session_id : String
  issued_at : Int
  expires_at : Int
  hmac_key : String
deriving Repr, DecidableEq

structure TokenPayload where
  device_id : String
  session_id : String
  issued_at : Int
  expires_at : Int
deriving Repr, DecidableEq

structure JWTState where
  secret : String
  expiry_hours : Int
  revoked_tokens : List Token
deriving Repr, DecidableEq

/-- `JWTManager::generate_token`: claims `iss = arcs-server`, `sub`,
`iat = now`, `exp = now + expiry_hours`, plus `session_id` and `device_id`,
signed with the manager's secret. -/
def generate_token (st : JWTState) (device_id session_id : String)
    (permissions : List String) (now : Int) : Token :=
  let _ := permissions
  { issuer := "arcs-server", subject := device_id,
    device_id := device_id, session_id := session_id,
    issued_at := now, expires_at := now + st.expiry_hours * 3600,
    hmac_key := st.secret }

/-- `JWTManager::is_revoked`. -/
def is_revoked (st : JWTState) (t : Token) : Bool :=
  st.revoked_tokens.contains t

/-- `JWTManager::validate_token`: `none` when revoked; then the signature
and issuer are verified (any failure is caught and yields `none`); finally
the payload is returned unless `now > exp`. -/
def validate_token (st : JWTState) (t : Token) (now : Int) :
    Option TokenPayload :=
  if is_revoked st t then none
  else if t.hmac_key = st.secret ∧ t.issuer = "arcs-server" then
    if now > t.expires_at then none
    else some
      { device_id := t.device_id, session_id := t.session_id,
        issued_at := t.issued_at, expires_at := t.expires_at }
  else none

/-- `JWTManager::is_expired`: checks only the `exp` claim. -/
def token_is_expired (t : Token) (now : Int) : Bool :=
  now > t.expires_at

/-- `JWTManager::revoke_token`. -/
def revoke_token (st : JWTState) (t : Token) : JWTState :=
  { st with revoked_tokens := t :: st.revoked_tokens }

/-! Device registry, from `src/server/src/auth/device_registry.{h,cpp}`. -/

structure DeviceEntry where
  device_id : String
  device_secret : String
  device_model : String
  registered_at : Int
  is_active : Bool
deriving Repr, DecidableEq

abbrev DeviceRegistryState := List (String × DeviceEntry)

/-- `DeviceRegistry::register_device`: fails iff the id is taken. -/
def register_device_entry (st : DeviceRegistryState)
    (device_id device_secret device_model : String) (now : Int) :
    Bool × DeviceRegistryState :=
  match getKey? st device_id with
  | some _ => (false, st)
  | none =>
      (true, setKey st device_id
        { device_id := device_id, device_secret := device_secret,
          device_model := device_model, registered_at := now,
          is_active := true })

/-- `DeviceRegistry::authenticate`: entry exists, is active and the secret
matches. -/
def authenticate (st : DeviceRegistryState) (device_id device_secret : String) :
    Bool :=
  match getKey? st device_id with
  | none => false
  | some e => e.is_active && e.device_secret == device_secret

/-! JSON objects and the command router, from
`src/server/src/router/command_router.{h,cpp}`.  An `nlohmann::json` object
is embedded as an association list of string keys and scalar values; `dump`
serializes it compactly (string escaping, which no claim depends on, is
elided).  Accesses that would throw (`operator[]` on a missing key, or a
string read of a non-string value) are embedded in the `Option` monad, with
`none` playing the role of the propagated exception. -/

inductive JVal where
  | str : String → JVal
  | num : Int → JVal
  | boolean : Bool → JVal
  | nullv : JVal
deriving Repr, DecidableEq

abbrev JObj := List (String × JVal)

def JObj.containsKey (c : JObj) (k : String) : Bool :=
  (getKey? c k).isSome

/-- String read through `operator[]`: throws (`none`) when the key is
missing or the value is not a string. -/
def jget_str (c : JObj) (k : String) : Option String :=
  match getKey? c k with
  | some (JVal.str s) => some s
  | _ => none

/-- String read through `json::value(key, "")`: the default when the key is
missing, a throw (`none`) when the value is not a string. -/
def jvalue_str (c : JObj) (k : String) : Option String :=
  match getKey? c k with
  | none => some ""
  | some (JVal.str s) => some s
  | some _ => none

def dumpVal : JVal → String
  | JVal.str s => "\"" ++ s ++ "\""
  | JVal.num n => toString n
  | JVal.boolean b => if b then "true" else "false"
  | JVal.nullv => "null"

def dumpFields : JObj → String
  | [] => ""
  | [(k, v)] => "\"" ++ k ++ "\":" ++ dumpVal v
  | (k, v) :: rest => "\"" ++ k ++ "\":" ++ dumpVal v ++ "," ++ dumpFields rest

def dump (c : JObj) : String := "\x7b" ++ dumpFields c ++ "\x7d"

/-- `CommandRouter::validate_command`. -/
def validate_command (c : JObj) : Option Bool := do
  if ! c.containsKey "type" then return false
  let ty ← jget_str c "type"
  if ty = "touch" then
    if ! c.containsKey "action" then return false
    let action ← jget_str c "action"
    if action = "tap" ∨ action = "long_press" then
      if ! c.containsKey "x" ∨ ! c.containsKey "y" then return false
    else if action = "swipe" then
      if ! c.containsKey "start_x" ∨ ! c.containsKey "start_y" ∨
          ! c.containsKey "end_x" ∨ ! c.containsKey "end_y" then
        return false
  if ty = "key" then
    if ! c.containsKey "action" then return false
    let action ← jget_str c "action"
    if action = "text" ∧ ! c.containsKey "text" then return false
    if action = "press" ∧ ! c.containsKey "keycode" then return false
  return true

/-- `CommandRouter::check_rate_limit`: derive the rate category from the
command; a missing limiter (`none`) allows everything. -/
def check_rate_limit (lim : Option RateLimiterState) (session_id : String)
    (c : JObj) (now : ℚ) : Option (Bool × Option RateLimiterState) := do
  match lim with
  | none => return (true, none)
  | some st =>
      let ty ← jvalue_str c "type"
      if ty = "touch" then
        let r := allow_touch st session_id now
        return (r.1, some r.2)
      else if ty = "key" then
        let action ← jvalue_str c "action"
        if action = "text" then
          let r := allow_text st session_id now
          return (r.1, some r.2)
        else
          return (true, some st)
      else if ty = "macro" then
        let r := allow_macro st session_id now
        return (r.1, some r.2)
      else if ty = "ai" then
        let action ← jvalue_str c "action"
        if action = "ocr" ∨ action = "detect_ui" then
          let r := allow_ocr st session_id now
          return (r.1, some r.2)
        else
          return (true, some st)
      else
        return (true, some st)

/-- `CommandRouter::sanitize_command`: mask `jwt_token`, `secret` and
`password` when present. -/
def sanitize_command (c : JObj) : JObj :=
  let s1 := if JObj.containsKey c "jwt_token" then setKey c "jwt_token" (JVal.str "***") else c
  let s2 := if JObj.containsKey s1 "secret" then setKey s1 "secret" (JVal.str "***") else s1
  if JObj.containsKey s2 "password" then setKey s2 "password" (JVal.str "***") else s2

/-- The error payload built by `CommandRouter::route_to_device` on a rate
limit rejection (field order is the `std::map` key order of
`nlohmann::json`). -/
def rate_limit_error : JObj :=
  [("code", JVal.str "ERR_RATE_LIMIT"),
   ("message", JVal.str "Too many requests, please slow down"),
   ("type", JVal.str "error")]

/-- `CommandRouter::route_to_device`: empty string on validation failure,
serialized `ERR_RATE_LIMIT` payload on rate rejection, otherwise the
serialized original command (the sanitized copy goes only to the log). -/
def route_to_device (lim : Option RateLimiterState) (session_id : String)
    (c : JObj) (now : ℚ) : Option (String × Option RateLimiterState) := do
  let ok ← validate_command c
  if ! ok then return ("", lim)
  let r ← check_rate_limit lim session_id c now
  if ! r.1 then return (dump rate_limit_error, r.2)
  return (dump c, r.2)

/-! Connection handler, from
`src/server/src/websocket/connection_handler.cpp`.  The reply sent over the
socket is embedded as a `Response` value mirroring the JSON message built by
the corresponding `MessageParser::create_*` helper. -/

inductive Response where
  | errorMsg (code message : String)
  | authResponse (success : Bool) (session_id : String) (jwt_token : Token)
      (expires_at : Int)
  | joinResponse (success : Bool)
deriving Repr, DecidableEq

/-- `ConnectionHandler::handle_auth_request`: authenticate against the
device registry when one is configured (accept anything otherwise), create
a session, generate a JWT with a handler-local `JWTManager("secret_key")`,
and reply with `auth_response`.  The source passes only the device id to
`generate_token`, so the token's `session_id` claim stays empty. -/
def handle_auth_request (registry : Option DeviceRegistryState)
    (sm : SessionState) (device_id secret fresh_session_id : String)
    (now : Int) : Response × SessionState :=
  let authed :=
    match registry with
    | some reg => authenticate reg device_id secret
    | none => true
  if authed then
    let r := create_session sm device_id fresh_session_id now
    let jwt_mgr : JWTState := { secret := "secret_key", expiry_hours := 24,
                                revoked_tokens := [] }
    let jwt_token := generate_token jwt_mgr device_id "" [] now
    (Response.authResponse true r.1 jwt_token (now + 3600000), r.2)
  else
    (Response.errorMsg "ERR_AUTH_FAILED" "Invalid device credentials", sm)

/-- `ConnectionHandler::handle_join_session`: validate the token with a
handler-local `JWTManager("secret_key")`, then join the session with the
connection id as controller id; the token's `session_id` claim is never
compared with the request's `session_id`. -/
def handle_join_session (sm : SessionState) (session_id : String)
    (jwt_token : Token) (connection_id : String) (now : Int) :
    Response × SessionState :=
  let jwt_mgr : JWTState := { secret := "secret_key", expiry_hours := 24,
                              revoked_tokens := [] }
  match validate_token jwt_mgr jwt_token now with
  | none => (Response.errorMsg "INVALID_TOKEN" "JWT validation failed", sm)
  | some _ =>
      let controller_id := connection_id
      let r := join_session sm session_id controller_id now
      if r.1 then (Response.joinResponse true, r.2)
      else (Response.errorMsg "SESSION_NOT_FOUND" "Session does not exist", r.2)

/-- A reply carrying the `ERR_RATE_LIMIT` error code. -/
def Response.isRateLimitError : Response → Prop
  | Response.errorMsg code _ => code = "ERR_RATE_LIMIT"
  | _ => False

/-! Further association-list lemmas used by the claims. -/

@[simp] theorem getKey?_nil {α : Type} (k : String) :
    getKey? ([] : List (String × α)) k = none := rfl

theorem getKey?_setKey_self {α : Type} (m : List (String × α)) (k : String)
    (v : α) : getKey? (setKey m k v) k = some v := by
  induction m with
  | nil => simp [setKey, getKey?]
  | cons kv rest ih =>
      obtain ⟨k', v'⟩ := kv
      by_cases h : k' = k <;> simp [setKey, getKey?, h, ih]

theorem getKey?_setKey_ne {α : Type} (m : List (String × α)) (k k' : String)
    (v : α) (h : k ≠ k') : getKey? (setKey m k v) k' = getKey? m k' := by
  induction m with
  | nil => simp [setKey, getKey?, h]
  | cons kv rest ih =>
      obtain ⟨k₀, v₀⟩ := kv
      by_cases h₀ : k₀ = k
      · subst h₀; simp [setKey, getKey?, h]
      · simp [setKey, getKey?, h₀, ih]

theorem setKey_setKey_same {α : Type} (m : List (String × α)) (k : String)
    (v w : α) : setKey (setKey m k v) k w = setKey m k w := by
  induction m with
  | nil => simp [setKey]
  | cons kv rest ih =>
      obtain ⟨k₀, v₀⟩ := kv
      by_cases h₀ : k₀ = k <;> simp [setKey, h₀, ih]

theorem getKey?_eraseKey_self {α : Type} (m : List (String × α)) (k : String) :
    getKey? (eraseKey m k) k = none := by
  induction m with
  | nil => simp [eraseKey, getKey?]
  | cons kv rest ih =>
      obtain ⟨k₀, v₀⟩ := kv
      by_cases h₀ : k₀ = k
      · subst h₀; simpa [eraseKey, getKey?] using ih
      · simpa [eraseKey, getKey?, h₀] using ih

theorem setKey_of_getKey?_none {α : Type} (m : List (String × α)) (k : String)
    (v : α) (h : getKey? m k = none) : setKey m k v = m ++ [(k, v)] := by
  induction m with
  | nil => simp [setKey]
  | cons kv rest ih =>
      obtain ⟨k₀, v₀⟩ := kv
      by_cases h₀ : k₀ = k
      · simp [getKey?, h₀] at h
      · simp [getKey?, h₀] at h
        simp [setKey, h₀, ih h]

theorem getKey?_filter_none {α : Type} (p : String × α → Bool)
    (m : List (String × α)) (k : String) (h : getKey? m k = none) :
    getKey? (m.filter p) k = none := by
  induction m with
  | nil => simp
  | cons kv rest ih =>
      obtain ⟨k₀, v₀⟩ := kv
      by_cases hk : k₀ = k
      · simp [getKey?, hk] at h
      · simp [getKey?, hk] at h
        by_cases hp : p (k₀, v₀) <;> simp [List.filter_cons, hp, getKey?, hk, ih h]

theorem getKey?_filter_key {α : Type} (p : String → Bool)
    (m : List (String × α)) (k : String) :
    getKey? (m.filter (fun kv => p kv.1)) k =
      if p k then getKey? m k else none := by
  induction m with
  | nil => cases h : p k <;> simp [h]
  | cons kv rest ih =>
      obtain ⟨k₀, v₀⟩ := kv
      by_cases hk : k₀ = k
      · subst hk
        cases h : p k₀ <;> simp [List.filter_cons, h, getKey?, ih]
      · by_cases hp : p k₀ <;> simp [List.filter_cons, hp, getKey?, hk, ih]

theorem getKey?_mem {α : Type} (m : List (String × α)) (k : String) (v : α)
    (h : getKey? m k = some v) : (k, v) ∈ m := by
  induction m with
  | nil => simp [getKey?] at h
  | cons kv rest ih =>
      obtain ⟨k₀, v₀⟩ := kv
      by_cases hk : k₀ = k
      · subst hk
        have h' : v₀ = v := by simpa [getKey?] using h
        simp [h']
      · simp only [getKey?, if_neg hk] at h
        simp [ih h]

theorem getKey?_filter_nodup {α : Type} (p : String × α → Bool)
    (m : List (String × α)) (k : String) (v : α)
    (hnodup : (m.map Prod.fst).Nodup) (h : getKey? m k = some v) :
    getKey? (m.filter p) k = if p (k, v) then some v else none := by
  induction m with
  | nil => simp [getKey?] at h
  | cons kv rest ih =>
      obtain ⟨k₀, v₀⟩ := kv
      simp only [List.map_cons, List.nodup_cons] at hnodup
      by_cases hk : k₀ = k
      · subst hk
        have h' : v₀ = v := by simpa [getKey?] using h
        rw [← h']
        have hrest : getKey? rest k₀ = none := by
          cases hr : getKey? rest k₀ with
          | none => rfl
          | some w =>
              have hmem : k₀ ∈ rest.map Prod.fst :=
                List.mem_map_of_mem Prod.fst (getKey?_mem rest k₀ w hr)
              exact absurd hmem hnodup.1
        by_cases hp : p (k₀, v₀)
        · simp [List.filter_cons, hp, getKey?]
        · simp [List.filter_cons, hp, getKey?,
            getKey?_filter_none p rest k₀ hrest]
      · simp only [getKey?, if_neg hk] at h
        by_cases hp : p (k₀, v₀) <;>
          simp [List.filter_cons, hp, getKey?, hk, ih hnodup.2 h]

/-! Claim C1: JWT generate / validate / revoke / expiry discipline. -/

/-- C1: validating a freshly generated token (one not in the revocation
set) succeeds and returns a payload with the requested `device_id` and
`session_id`; after `revoke(t)`, `validate(t)` is `none`; and once the
current time is past the token's `exp` claim, `validate(t)` is `none`. -/
theorem jwt_validate_generate_revoke_expire :
    (∀ (st : JWTState) (d s : String) (p : List String) (now : Int),
      generate_token st d s p now ∉ st.revoked_tokens →
      0 ≤ st.expiry_hours →
      validate_token st (generate_token st d s p now) now =
        some { device_id := d, session_id := s, issued_at := now,
               expires_at := now + st.expiry_hours * 3600 }) ∧
    (∀ (st : JWTState) (t : Token) (now : Int),
      validate_token (revoke_token st t) t now = none) ∧
    (∀ (st : JWTState) (t : Token) (now : Int),
      t.expires_at < now → validate_token st t now = none) := by
  refine ⟨?_, ?_, ?_⟩
  · intro st d s p now hrev hexp
    have hnotrev : is_revoked st (generate_token st d s p now) = false := by
      simp [is_revoked, List.elem_iff, hrev]
    have hle : ¬ now > now + st.expiry_hours * 3600 := by
      have : 0 ≤ st.expiry_hours * 3600 := by positivity
      omega
    rw [validate_token, hnotrev]
    simp [generate_token, hle]
  · intro st t now
    have hr : is_revoked (revoke_token st t) t = true := by
      simp [is_revoked, revoke_token, List.elem_iff]
    rw [validate_token, hr]
    rfl
  · intro st t now hlt
    by_cases hrev : is_revoked st t
    · simp [validate_token, hrev]
    · by_cases hsig : t.hmac_key = st.secret ∧ t.issuer = "arcs-server"
      · simp [validate_token, hrev, hsig, gt_iff_lt, hlt]
      · simp [validate_token, hrev, hsig]

/-- Witness for C1, at a concrete manager, device, session and clock. -/
theorem jwt_validate_generate_revoke_expire_witness :
    validate_token ⟨"secret_key", 24, []⟩
        (generate_token ⟨"secret_key", 24, []⟩ "dev1" "sess1" [] 5) 5 =
      some { device_id := "dev1", session_id := "sess1", issued_at := 5,
             expires_at := 5 + 24 * 3600 } :=
  jwt_validate_generate_revoke_expire.1 ⟨"secret_key", 24, []⟩ "dev1" "sess1"
    [] 5 (by simp) (by decide)

/-! Claim C9: `reset_session` and composite-key prefixes. -/

/-- C9 counterexample: the bucket keyed `"ab:touch"` does not start with
`"a" ++ ":"`, so the claim says `reset("a")` must leave it unchanged, yet
the code (which tests `find(session_id) == 0`, i.e. a bare prefix match)
erases it. -/
theorem reset_session_colon_counterexample :
    strHasPrefix ("a" ++ ":") "ab:touch" = false ∧
    getKey? (reset_session [("ab:touch", ⟨1, 1, 1, 0⟩)] "a") "ab:touch" =
      none := by
  constructor
  · decide
  · decide

/-- C9 amended: `reset_session k` removes exactly the buckets whose
composite key starts with `k` itself (no `":"` appended): every such bucket
is deleted and every other bucket is left unchanged. -/
theorem reset_session_removes_prefix_matches (st : RateLimiterState)
    (k kk : String) :
    getKey? (reset_session st k) kk =
      if strHasPrefix k kk then none else getKey? st kk := by
  have h := getKey?_filter_key (fun s => ! strHasPrefix k s) st kk
  simp only [reset_session]
  rw [h]
  cases hp : strHasPrefix k kk <;> simp [hp]

/-! Claim C10: the first `allow` call for an unknown composite key. -/

theorem check_and_consume_fresh (st : RateLimiterState) (key : String)
    (cap rate now : ℚ) (h : getKey? st key = none) (hcap : 1 ≤ cap) :
    check_and_consume st key cap rate now =
      (true, setKey st key
        { tokens := cap - 1, max_tokens := cap, refill_rate := rate,
          last_update := now }) := by
  unfold check_and_consume refill_bucket
  rw [h]
  simp [hcap]

/-- C10: for every category, the very first `allow` call on a composite key
with no existing bucket returns `true`: the bucket is created holding its
full capacity, each category's capacity is at least one token, and exactly
one token is deducted. -/
theorem first_allow_call_succeeds (st : RateLimiterState) (key : String)
    (now : ℚ)
    (ht : getKey? st (key ++ ":touch") = none)
    (htx : getKey? st (key ++ ":text") = none)
    (hm : getKey? st (key ++ ":macro") = none)
    (ho : getKey? st (key ++ ":ocr") = none)
    (ha : getKey? st (key ++ ":auth") = none) :
    ((1 : ℚ) ≤ Limits.TOUCH_MAX ∧ (1 : ℚ) ≤ Limits.TEXT_MAX ∧
      (1 : ℚ) ≤ Limits.MACRO_MAX ∧ (1 : ℚ) ≤ Limits.OCR_MAX ∧
      (1 : ℚ) ≤ Limits.AUTH_MAX) ∧
    allow_touch st key now =
      (true, setKey st (key ++ ":touch")
        ⟨Limits.TOUCH_MAX - 1, Limits.TOUCH_MAX, Limits.TOUCH_MAX, now⟩) ∧
    allow_text st key now =
      (true, setKey st (key ++ ":text")
        ⟨Limits.TEXT_MAX - 1, Limits.TEXT_MAX, Limits.TEXT_MAX, now⟩) ∧
    allow_macro st key now =
      (true, setKey st (key ++ ":macro")
        ⟨Limits.MACRO_MAX - 1, Limits.MACRO_MAX, Limits.MACRO_MAX, now⟩) ∧
    allow_ocr st key now =
      (true, setKey st (key ++ ":ocr")
        ⟨Limits.OCR_MAX - 1, Limits.OCR_MAX, Limits.OCR_MAX, now⟩) ∧
    allow_auth st key now =
      (true, setKey st (key ++ ":auth")
        ⟨Limits.AUTH_MAX - 1, Limits.AUTH_MAX, Limits.AUTH_MAX / 60, now⟩) := by
  refine ⟨⟨by norm_num [Limits.TOUCH_MAX], by norm_num [Limits.TEXT_MAX],
    by norm_num [Limits.MACRO_MAX], by norm_num [Limits.OCR_MAX],
    by norm_num [Limits.AUTH_MAX]⟩, ?_, ?_, ?_, ?_, ?_⟩
  · exact check_and_consume_fresh st _ _ _ now ht
      (by norm_num [Limits.TOUCH_MAX])
  · exact check_and_consume_fresh st _ _ _ now htx
      (by norm_num [Limits.TEXT_MAX])
  · exact check_and_consume_fresh st _ _ _ now hm
      (by norm_num [Limits.MACRO_MAX])
  · exact check_and_consume_fresh st _ _ _ now ho
      (by norm_num [Limits.OCR_MAX])
  · exact check_and_consume_fresh st _ _ _ now ha
      (by norm_num [Limits.AUTH_MAX])

/-- Witness for C10 on the empty limiter state. -/
theorem first_allow_call_succeeds_witness :
    ( allow_touch [] "s" 0).1 = true ∧ ( allow_macro [] "s" 0).1 = true ∧
    ( allow_auth [] "s" 0).1 = true :=
  let h := first_allow_call_succeeds [] "s" 0 rfl rfl rfl rfl rfl
  ⟨by rw [h.2.1], by rw [h.2.2.2.1], by rw [h.2.2.2.2.2]⟩

/-! Claim C3: session registry lifecycle. -/

/-- C3: `create` returns the existing active session's id for a device that
has one (leaving the registry unchanged) and stores a fresh session
otherwise; creation preserves the at-most-one-active-session-per-device
invariant; a successful `close(s)` makes `get(s) = none`; and
`cleanup_expired` removes exactly the sessions idle for more than 300
seconds. -/
theorem session_registry_lifecycle :
    (∀ (st : SessionState) (d f : String) (now : Int) (s : Session),
      (∀ kv ∈ st, kv.1 = kv.2.session_id) →
      get_session_by_device st d = some s →
      create_session st d f now = (s.session_id, st)) ∧
    (∀ (st : SessionState) (d f : String) (now : Int),
      get_session_by_device st d = none →
      (create_session st d f now).1 = f ∧
      get_session (create_session st d f now).2 f =
        some ⟨f, d, "", now, now, true⟩) ∧
    (∀ (st : SessionState) (d f : String) (now : Int),
      getKey? st f = none →
      st.Pairwise (fun a b => ¬(a.2.is_active = true ∧ b.2.is_active = true ∧
        a.2.device_id = b.2.device_id)) →
      (create_session st d f now).2.Pairwise
        (fun a b => ¬(a.2.is_active = true ∧ b.2.is_active = true ∧
          a.2.device_id = b.2.device_id))) ∧
    (∀ (st : SessionState) (sid : String),
      (close_session st sid).1 = true →
      get_session (close_session st sid).2 sid = none) ∧
    (∀ (st : SessionState) (now : Int) (sid : String) (s : Session),
      (st.map Prod.fst).Nodup →
      get_session st sid = some s →
      get_session (cleanup_expired st now) sid =
        if 300 < now - s.last_activity then none else some s) := by
  refine ⟨?_, ?_, ?_, ?_, ?_⟩
  · intro st d f now s hkeys hdev
    obtain ⟨kv, hfind, hkv⟩ := Option.map_eq_some'.mp hdev
    have hmem := List.mem_of_find?_eq_some hfind
    have hkey : kv.1 = s.session_id := by rw [hkeys kv hmem, hkv]
    simp only [create_session, hfind, hkey]
  · intro st d f now hdev
    have hfind : st.find?
        (fun kv => kv.2.device_id == d && kv.2.is_active) = none := by
      simpa [get_session_by_device] using hdev
    refine ⟨by simp [create_session, hfind], ?_⟩
    simp [create_session, hfind, get_session, getKey?_setKey_self]
  · intro st d f now hfresh hinv
    by_cases hfind : ∃ kv, st.find?
        (fun kv => kv.2.device_id == d && kv.2.is_active) = some kv
    · obtain ⟨kv, hkv⟩ := hfind
      simpa [create_session, hkv] using hinv
    · have hnone : st.find?
          (fun kv => kv.2.device_id == d && kv.2.is_active) = none := by
        cases h : st.find? (fun kv => kv.2.device_id == d && kv.2.is_active)
        · rfl
        · exact absurd ⟨_, h⟩ hfind
      have hall := List.find?_eq_none.mp hnone
      simp only [create_session, hnone]
      rw [setKey_of_getKey?_none st f _ hfresh]
      rw [List.pairwise_append]
      refine ⟨hinv, by simp, ?_⟩
      intro a ha b hb
      simp only [List.mem_singleton] at hb
      subst hb
      rintro ⟨haact, -, hdev⟩
      have := hall a ha
      simp [hdev, haact] at this
  · intro st sid hclose
    cases h : getKey? st sid with
    | none => simp [close_session, h] at hclose
    | some s =>
        simp only [close_session, h, get_session]
        exact getKey?_eraseKey_self st sid
  · intro st now sid s hnodup hget
    have h := getKey?_filter_nodup (fun kv => ! kv.2.is_expired now) st sid s
      hnodup hget
    simp only [cleanup_expired, get_session] at *
    rw [h]
    by_cases hexp : (300 : Int) < now - s.last_activity <;>
      simp [Session.is_expired, hexp]

/-- Witness for C3 on a one-session registry. -/
theorem session_registry_lifecycle_witness :
    create_session [("S", ⟨"S", "D", "", 0, 0, true⟩)] "D" "F" 5 =
      ("S", [("S", ⟨"S", "D", "", 0, 0, true⟩)]) ∧
    get_session
      (close_session [("S", ⟨"S", "D", "", 0, 0, true⟩)] "S").2 "S" = none ∧
    get_session
      (cleanup_expired [("S", ⟨"S", "D", "", 0, 0, true⟩)] 1000) "S" =
      none :=
  ⟨session_registry_lifecycle.1 [("S", ⟨"S", "D", "", 0, 0, true⟩)] "D" "F" 5
      ⟨"S", "D", "", 0, 0, true⟩ (by decide) (by decide),
   session_registry_lifecycle.2.2.2.1 [("S", ⟨"S", "D", "", 0, 0, true⟩)] "S"
      (by decide),
   by
    have h := session_registry_lifecycle.2.2.2.2
      [("S", ⟨"S", "D", "", 0, 0, true⟩)] 1000 "S" ⟨"S", "D", "", 0, 0, true⟩
      (by decide) (by decide)
    rw [h]
    decide⟩

/-! Claim C8: which controllers a session records. -/

/-- C8 counterexample: both joins succeed, yet after `join(S, c1)` then
`join(S, c2)` the session's single `controller_id` slot holds only `c2`;
`get_session_by_controller` no longer returns the session for `c1`, against
the claim that both controllers stay recorded. -/
theorem join_overwrites_controller_counterexample :
    (join_session [("S", ⟨"S", "D", "", 0, 0, true⟩)] "S" "c1" 1).1 = true ∧
    (join_session
      (join_session [("S", ⟨"S", "D", "", 0, 0, true⟩)] "S" "c1" 1).2
      "S" "c2" 2).1 = true ∧
    get_session_by_controller
      (join_session
        (join_session [("S", ⟨"S", "D", "", 0, 0, true⟩)] "S" "c1" 1).2
        "S" "c2" 2).2 "c1" = none := by
  refine ⟨by decide, by decide, by decide⟩

theorem find?_setKey_unique {α : Type} (p : String × α → Bool)
    (st : List (String × α)) (k : String) (v : α)
    (hnodup : (st.map Prod.fst).Nodup)
    (hk : getKey? st k ≠ none)
    (hothers : ∀ kv ∈ st, kv.1 ≠ k → p kv = false) :
    (setKey st k v).find? p = if p (k, v) then some (k, v) else none := by
  induction st with
  | nil => simp [getKey?] at hk
  | cons kv rest ih =>
      obtain ⟨k₀, v₀⟩ := kv
      simp only [List.map_cons, List.nodup_cons] at hnodup
      by_cases hk₀ : k₀ = k
      · subst hk₀
        have hrest : ∀ kv ∈ rest, p kv = false := by
          intro kv hkv
          refine hothers kv (List.mem_cons_of_mem _ hkv) ?_
          intro hkk
          exact hnodup.1 (hkk ▸ List.mem_map_of_mem Prod.fst hkv)
        have hrestnone : rest.find? p = none :=
          List.find?_eq_none.mpr (by intro x hx; simp [hrest x hx])
        by_cases hp : p (k₀, v)
        · simp [setKey, List.find?_cons, hp]
        · simp [setKey, List.find?_cons, hp, hrestnone]
      · have hkne : getKey? rest k ≠ none := by
          simpa [getKey?, hk₀] using hk
        have hp₀ : p (k₀, v₀) = false :=
          hothers (k₀, v₀) (List.mem_cons_self _ _) hk₀
        simp [setKey, hk₀, List.find?_cons, hp₀,
          ih hnodup.2 hkne (fun kv hkv hne =>
            hothers kv (List.mem_cons_of_mem _ hkv) hne)]

/-- C8 amended: a session records only the most recent controller.  After
`join(s, c1)` then `join(s, c2)` both calls return `true`, the session's
`controller_id` is `c2` with `last_activity` refreshed, and
`get_session_by_controller` returns the session for `c2` but no longer for
`c1`. -/
theorem join_records_last_controller (st : SessionState) (sid c1 c2 : String)
    (s0 : Session) (n1 n2 : Int)
    (hnodup : (st.map Prod.fst).Nodup)
    (hs : getKey? st sid = some s0)
    (hact : s0.is_active = true)
    (hne : c1 ≠ c2)
    (hoth : ∀ kv ∈ st, kv.1 ≠ sid → kv.2.is_active = true →
      kv.2.controller_id ≠ c1 ∧ kv.2.controller_id ≠ c2) :
    (join_session st sid c1 n1).1 = true ∧
    (join_session (join_session st sid c1 n1).2 sid c2 n2).1 = true ∧
    get_session (join_session (join_session st sid c1 n1).2 sid c2 n2).2 sid =
      some { s0 with controller_id := c2, last_activity := n2 } ∧
    get_session_by_controller
        (join_session (join_session st sid c1 n1).2 sid c2 n2).2 c2 =
      some { s0 with controller_id := c2, last_activity := n2 } ∧
    get_session_by_controller
        (join_session (join_session st sid c1 n1).2 sid c2 n2).2 c1 =
      none := by
  have h1 : join_session st sid c1 n1 =
      (true, setKey st sid { s0 with controller_id := c1, last_activity := n1 }) := by
    simp [join_session, hs, hact]
  have h2 : join_session (join_session st sid c1 n1).2 sid c2 n2 =
      (true, setKey st sid { s0 with controller_id := c2, last_activity := n2 }) := by
    rw [h1]
    simp only [join_session, getKey?_setKey_self, hact, if_pos]
    rw [setKey_setKey_same]
  have hknotnone : getKey? st sid ≠ none := by simp [hs]
  refine ⟨by rw [h1], by rw [h2], ?_, ?_, ?_⟩
  · rw [h2]
    exact getKey?_setKey_self st sid _
  · rw [h2]
    have hfind := find?_setKey_unique
      (fun kv => kv.2.controller_id == c2 && kv.2.is_active) st sid
      { s0 with controller_id := c2, last_activity := n2 }
      hnodup hknotnone ?side
    case side =>
      intro kv hkv hkne
      by_cases ha : kv.2.is_active = true
      · simp [(hoth kv hkv hkne ha).2, ha]
      · simp [eq_false_of_ne_true ha]
    simp only [get_session_by_controller, hfind]
    simp [hact]
  · rw [h2]
    have hfind := find?_setKey_unique
      (fun kv => kv.2.controller_id == c1 && kv.2.is_active) st sid
      { s0 with controller_id := c2, last_activity := n2 }
      hnodup hknotnone ?side2
    case side2 =>
      intro kv hkv hkne
      by_cases ha : kv.2.is_active = true
      · simp [(hoth kv hkv hkne ha).1, ha]
      · simp [eq_false_of_ne_true ha]
    simp only [get_session_by_controller, hfind]
    simp [hne.symm]

/-- Witness for C8 (amended) on a one-session registry. -/
theorem join_records_last_controller_witness :
    get_session_by_controller
        (join_session
          (join_session [("S", ⟨"S", "D", "", 0, 0, true⟩)] "S" "c1" 1).2
          "S" "c2" 2).2 "c2" =
      some ⟨"S", "D", "c2", 0, 2, true⟩ :=
  (join_records_last_controller [("S", ⟨"S", "D", "", 0, 0, true⟩)] "S" "c1"
    "c2" ⟨"S", "D", "", 0, 0, true⟩ 1 2 (by decide) (by decide) (by decide)
    (by decide) (by decide)).2.2.2.1

/-! Claim C2: the `join_session` handler paths. -/

/-- C2 counterexample: a token that validates but whose `session_id` claim
is `"OTHER"` is accepted for a join of session `"S"` — the handler never
compares the claim with the request, so the reply is a successful
`join_response` instead of the rejection the claim requires. -/
theorem join_session_claim_mismatch_counterexample :
    (validate_token ⟨"secret_key", 24, []⟩
        ⟨"arcs-server", "dev", "dev", "OTHER", 0, 86400, "secret_key"⟩
        0).isSome = true ∧
    ("OTHER" : String) ≠ "S" ∧
    (handle_join_session [("S", ⟨"S", "devX", "", 0, 0, true⟩)] "S"
        ⟨"arcs-server", "dev", "dev", "OTHER", 0, 86400, "secret_key"⟩
        "conn1" 0).1 = Response.joinResponse true := by
  refine ⟨by decide, by decide, by decide⟩

/-- C2 amended: an invalid token is answered with `INVALID_TOKEN` and a
failed join with `SESSION_NOT_FOUND`, but the token's `session_id` claim is
never compared with the request's `session_id`: any valid token is accepted
for any requested session, and the outcome depends only on the join
itself. -/
theorem handle_join_session_paths (sm : SessionState) (sid : String)
    (tok : Token) (conn : String) (now : Int) :
    (validate_token ⟨"secret_key", 24, []⟩ tok now = none →
      handle_join_session sm sid tok conn now =
        (Response.errorMsg "INVALID_TOKEN" "JWT validation failed", sm)) ∧
    (∀ pl, validate_token ⟨"secret_key", 24, []⟩ tok now = some pl →
      ((join_session sm sid conn now).1 = false →
        handle_join_session sm sid tok conn now =
          (Response.errorMsg "SESSION_NOT_FOUND" "Session does not exist",
            (join_session sm sid conn now).2)) ∧
      ((join_session sm sid conn now).1 = true →
        handle_join_session sm sid tok conn now =
          (Response.joinResponse true, (join_session sm sid conn now).2))) := by
  constructor
  · intro hval
    simp [handle_join_session, hval]
  · intro pl hval
    constructor
    · intro hjoin
      simp [handle_join_session, hval, hjoin]
    · intro hjoin
      simp [handle_join_session, hval, hjoin]

/-- Witness for C2 (amended): a token signed with the wrong key is answered
with `INVALID_TOKEN`. -/
theorem handle_join_session_paths_witness :
    handle_join_session [("S", ⟨"S", "devX", "", 0, 0, true⟩)] "S"
        ⟨"arcs-server", "dev", "dev", "S", 0, 86400, "wrong_key"⟩ "conn1" 0 =
      (Response.errorMsg "INVALID_TOKEN" "JWT validation failed",
        [("S", ⟨"S", "devX", "", 0, 0, true⟩)]) :=
  (handle_join_session_paths [("S", ⟨"S", "devX", "", 0, 0, true⟩)] "S"
    ⟨"arcs-server", "dev", "dev", "S", 0, 86400, "wrong_key"⟩ "conn1" 0).1
    (by decide)

/-! Claim C7: the `auth_request` handler and the rate limiter. -/

/-- C7 counterexample: a limiter state whose auth bucket for `dev1` is
empty (so `allow_auth` returns `false`) does not make the handler reply
`ERR_RATE_LIMIT` — the handler never consults the rate limiter and proceeds
straight to credential authentication, here succeeding. -/
theorem auth_request_no_rate_limit_counterexample :
    ( allow_auth [("dev1:auth", ⟨0, 5, 5 / 60, 0⟩)] "dev1" 0).1 = false ∧
    ¬ (handle_auth_request
        (some [("dev1", ⟨"dev1", "s3", "Pixel", 0, true⟩)])
        [] "dev1" "s3" "S1" 0).1.isRateLimitError := by
  constructor
  · simp [allow_auth, check_and_consume, refill_bucket, getKey?,
      Limits.AUTH_MAX]
    norm_num
  · simp [handle_auth_request, authenticate, getKey?, create_session,
      Response.isRateLimitError]

/-- C7 amended: `handle_auth_request` performs no rate-limit check at all —
whatever the rate limiter state, the reply is `ERR_AUTH_FAILED` exactly
when a configured registry rejects the credentials, and otherwise a
successful `auth_response` after session creation and token generation. -/
theorem handle_auth_request_no_rate_limit (reg : DeviceRegistryState)
    (sm : SessionState) (d secret f : String) (now : Int) :
    (authenticate reg d secret = false →
      handle_auth_request (some reg) sm d secret f now =
        (Response.errorMsg "ERR_AUTH_FAILED" "Invalid device credentials",
          sm)) ∧
    (authenticate reg d secret = true →
      handle_auth_request (some reg) sm d secret f now =
        (Response.authResponse true (create_session sm d f now).1
            (generate_token ⟨"secret_key", 24, []⟩ d "" [] now)
            (now + 3600000),
          (create_session sm d f now).2)) := by
  constructor
  · intro hauth
    simp [handle_auth_request, hauth]
  · intro hauth
    simp [handle_auth_request, hauth]

/-- Witness for C7 (amended): a wrong secret yields `ERR_AUTH_FAILED`. -/
theorem handle_auth_request_no_rate_limit_witness :
    handle_auth_request (some [("dev1", ⟨"dev1", "s3", "Pixel", 0, true⟩)])
        [] "dev1" "wrong" "S1" 0 =
      (Response.errorMsg "ERR_AUTH_FAILED" "Invalid device credentials",
        []) :=
  (handle_auth_request_no_rate_limit
    [("dev1", ⟨"dev1", "s3", "Pixel", 0, true⟩)] [] "dev1" "wrong" "S1" 0).1
    (by decide)

/-! Claim C6: sanitize and `route_to_device`. -/

/-- C6: `sanitize` equals the original command except that each of
`jwt_token`, `secret`, `password` present in it is replaced by `"***"`;
`route_to_device` returns `""` when validation fails, a serialized error
payload with `type = "error"` and `code = "ERR_RATE_LIMIT"` on a rate-limit
rejection, and the serialized original command otherwise. -/
theorem sanitize_and_route_to_device :
    (∀ (c : JObj) (k : String),
      (k ≠ "jwt_token" → k ≠ "secret" → k ≠ "password" →
        getKey? (sanitize_command c) k = getKey? c k) ∧
      ((k = "jwt_token" ∨ k = "secret" ∨ k = "password") →
        getKey? (sanitize_command c) k =
          if JObj.containsKey c k then some (JVal.str "***") else none)) ∧
    (∀ (lim : Option RateLimiterState) (sid : String) (c : JObj) (now : ℚ),
      (validate_command c = some false →
        route_to_device lim sid c now = some ("", lim)) ∧
      (∀ l', validate_command c = some true →
        check_rate_limit lim sid c now = some (false, l') →
        route_to_device lim sid c now = some (dump rate_limit_error, l') ∧
        getKey? rate_limit_error "type" = some (JVal.str "error") ∧
        getKey? rate_limit_error "code" =
          some (JVal.str "ERR_RATE_LIMIT")) ∧
      (∀ l', validate_command c = some true →
        check_rate_limit lim sid c now = some (true, l') →
        route_to_device lim sid c now = some (dump c, l'))) := by
  have sanitize_step : ∀ (m : JObj) (key k : String), k ≠ key →
      getKey? (if JObj.containsKey m key then
        setKey m key (JVal.str "***") else m) k = getKey? m k := by
    intro m key k h
    split_ifs with hc
    · exact getKey?_setKey_ne m key k _ (Ne.symm h)
    · rfl
  have contains_step : ∀ (m : JObj) (key k : String), k ≠ key →
      JObj.containsKey (if JObj.containsKey m key then
        setKey m key (JVal.str "***") else m) k = JObj.containsKey m k := by
    intro m key k h
    have hstep := sanitize_step m key k h
    simp only [JObj.containsKey] at hstep ⊢
    rw [hstep]
  have mask_step : ∀ (m : JObj) (key : String),
      getKey? (if JObj.containsKey m key then
        setKey m key (JVal.str "***") else m) key =
      (if JObj.containsKey m key then some (JVal.str "***") else none) := by
    intro m key
    split_ifs with hc
    · exact getKey?_setKey_self m key _
    · simpa [JObj.containsKey, Option.isSome_iff_ne_none] using hc
  constructor
  · intro c k
    constructor
    · intro h1 h2 h3
      simp only [sanitize_command]
      rw [sanitize_step _ "password" k h3, sanitize_step _ "secret" k h2,
        sanitize_step _ "jwt_token" k h1]
    · rintro (rfl | rfl | rfl)
      · simp only [sanitize_command]
        rw [sanitize_step _ "password" "jwt_token" (by decide),
          sanitize_step _ "secret" "jwt_token" (by decide),
          mask_step c "jwt_token"]
      · simp only [sanitize_command]
        rw [sanitize_step _ "password" "secret" (by decide),
          mask_step _ "secret",
          contains_step _ "jwt_token" "secret" (by decide)]
      · simp only [sanitize_command]
        rw [mask_step _ "password",
          contains_step _ "secret" "password" (by decide),
          contains_step _ "jwt_token" "password" (by decide)]
  · intro lim sid c now
    refine ⟨?_, ?_, ?_⟩
    · intro hval
      simp [route_to_device, hval]
    · intro l' hval hchk
      refine ⟨by simp [route_to_device, hval, hchk], by decide, by decide⟩
    · intro l' hval hchk
      simp [route_to_device, hval, hchk]

/-- Witness for C6: masking a present `jwt_token`, keeping another field,
and the empty-string result on an invalid command. -/
theorem sanitize_and_route_to_device_witness :
    getKey? (sanitize_command [("jwt_token", JVal.str "tok"),
        ("foo", JVal.num 1)]) "jwt_token" = some (JVal.str "***") ∧
    getKey? (sanitize_command [("jwt_token", JVal.str "tok"),
        ("foo", JVal.num 1)]) "foo" = some (JVal.num 1) ∧
    route_to_device none "S" [("type", JVal.str "touch")] 0 =
      some ("", none) :=
  ⟨by
    have h := (sanitize_and_route_to_device.1
      [("jwt_token", JVal.str "tok"), ("foo", JVal.num 1)] "jwt_token").2
      (Or.inl rfl)
    rw [h]
    decide,
   by
    have h := (sanitize_and_route_to_device.1
      [("jwt_token", JVal.str "tok"), ("foo", JVal.num 1)] "foo").1
      (by decide) (by decide) (by decide)
    rw [h]
    decide,
   (sanitize_and_route_to_device.2 none "S" [("type", JVal.str "touch")] 0).1
     (by decide)⟩

/-! Claim C4: stream-router queue bound and drop accounting. -/

theorem getQueue_setKey_self (qs : List (String × List Frame)) (c : String)
    (q : List Frame) : getQueue (setKey qs c q) c = q := by
  simp [getQueue, getKey?_setKey_self]

theorem getQueue_setKey_ne (qs : List (String × List Frame)) (c c' : String)
    (q : List Frame) (h : c ≠ c') :
    getQueue (setKey qs c q) c' = getQueue qs c' := by
  simp [getQueue, getKey?_setKey_ne qs c c' q h]

theorem countP_eq_of_agree {α : Type} (l : List α) (p q : α → Bool)
    (h : ∀ x ∈ l, p x = q x) : l.countP p = l.countP q := by
  induction l with
  | nil => rfl
  | cons a l ih =>
      rw [List.countP_cons, List.countP_cons, h a (List.mem_cons_self a l),
        ih (fun x hx => h x (List.mem_cons_of_mem a hx))]

theorem route_loop_spec (frame : Frame) (cs : List String) :
    ∀ (qs : List (String × List Frame)) (dropped : Nat),
      cs.Nodup →
      (∀ c, (getQueue qs c).length ≤ MAX_QUEUE_SIZE) →
      (route_loop frame cs qs dropped).2 =
        dropped + cs.countP
          (fun c => MAX_QUEUE_SIZE ≤ (getQueue qs c).length) ∧
      (∀ c, (getQueue (route_loop frame cs qs dropped).1 c).length ≤
        MAX_QUEUE_SIZE) := by
  induction cs with
  | nil =>
      intro qs dropped _ hq
      exact ⟨by simp [route_loop], fun c => by simpa [route_loop] using hq c⟩
  | cons c cs ih =>
      intro qs dropped hnodup hq
      simp only [List.nodup_cons] at hnodup
      set q := getQueue qs c with hqdef
      have hqc : q.length ≤ MAX_QUEUE_SIZE := hq c
      by_cases hfull : MAX_QUEUE_SIZE ≤ q.length
      · have hlen : (q.tail ++ [frame]).length ≤ MAX_QUEUE_SIZE := by
          have ht := q.length_tail
          simp only [List.length_append, List.length_cons, List.length_nil,
            MAX_QUEUE_SIZE] at hqc hfull ht ⊢
          omega
        have hq' : ∀ c', (getQueue (setKey qs c (q.tail ++ [frame])) c').length ≤
            MAX_QUEUE_SIZE := by
          intro c'
          by_cases hc : c = c'
          · subst hc; rw [getQueue_setKey_self]; exact hlen
          · rw [getQueue_setKey_ne qs c c' _ hc]; exact hq c'
        have hstep : route_loop frame (c :: cs) qs dropped =
            route_loop frame cs (setKey qs c (q.tail ++ [frame]))
              (dropped + 1) := by
          simp [route_loop, ← hqdef, hfull]
        obtain ⟨ihc, ihb⟩ := ih (setKey qs c (q.tail ++ [frame]))
          (dropped + 1) hnodup.2 hq'
        refine ⟨?_, by rw [hstep]; exact ihb⟩
        have hagree := countP_eq_of_agree cs
          (fun c' => MAX_QUEUE_SIZE ≤
            (getQueue (setKey qs c (q.tail ++ [frame])) c').length)
          (fun c' => MAX_QUEUE_SIZE ≤ (getQueue qs c').length)
          (fun c' hc' => by
            simp only [getQueue_setKey_ne qs c c' _
              (fun hcc => hnodup.1 (hcc ▸ hc'))])
        have hdec : decide (MAX_QUEUE_SIZE ≤ (getQueue qs c).length) = true :=
          decide_eq_true (hqdef ▸ hfull)
        rw [hstep, ihc, hagree, List.countP_cons]
        simp only [hdec, if_true]
        omega
      · have hlen : (q ++ [frame]).length ≤ MAX_QUEUE_SIZE := by
          simp only [List.length_append, List.length_cons, List.length_nil,
            MAX_QUEUE_SIZE] at hqc hfull ⊢
          omega
        have hq' : ∀ c', (getQueue (setKey qs c (q ++ [frame])) c').length ≤
            MAX_QUEUE_SIZE := by
          intro c'
          by_cases hc : c = c'
          · subst hc; rw [getQueue_setKey_self]; exact hlen
          · rw [getQueue_setKey_ne qs c c' _ hc]; exact hq c'
        have hstep : route_loop frame (c :: cs) qs dropped =
            route_loop frame cs (setKey qs c (q ++ [frame])) dropped := by
          simp [route_loop, ← hqdef, hfull]
        obtain ⟨ihc, ihb⟩ := ih (setKey qs c (q ++ [frame])) dropped
          hnodup.2 hq'
        refine ⟨?_, by rw [hstep]; exact ihb⟩
        have hagree := countP_eq_of_agree cs
          (fun c' => MAX_QUEUE_SIZE ≤
            (getQueue (setKey qs c (q ++ [frame])) c').length)
          (fun c' => MAX_QUEUE_SIZE ≤ (getQueue qs c').length)
          (fun c' hc' => by
            simp only [getQueue_setKey_ne qs c c' _
              (fun hcc => hnodup.1 (hcc ▸ hc'))])
        have hdec : decide (MAX_QUEUE_SIZE ≤ (getQueue qs c).length) = false :=
          decide_eq_false (hqdef ▸ hfull)
        rw [hstep, ihc, hagree, List.countP_cons]
        simp only [hdec, Bool.false_eq_true, if_false]
        omega

/-- C4: after `route_frame`, every controller's frame queue holds at most
`MAX_QUEUE_SIZE = 30` frames, and `dropped_frames` grows by exactly the
number of attached controllers whose queue was found full. -/
theorem route_frame_queue_bound (st : List (String × StreamEndpoint))
    (sid : String) (frame : Frame) (ep : StreamEndpoint)
    (hep : getKey? st sid = some ep)
    (hnodup : ep.controller_ids.Nodup)
    (hq : ∀ kv ∈ ep.frame_queues, kv.2.length ≤ MAX_QUEUE_SIZE) :
    ∃ ep', getKey? (route_frame st sid frame) sid = some ep' ∧
      (∀ c, (getQueue ep'.frame_queues c).length ≤ MAX_QUEUE_SIZE) ∧
      ep'.stats.dropped_frames = ep.stats.dropped_frames +
        ep.controller_ids.countP
          (fun c => MAX_QUEUE_SIZE ≤ (getQueue ep.frame_queues c).length) := by
  have hq' : ∀ c, (getQueue ep.frame_queues c).length ≤ MAX_QUEUE_SIZE := by
    intro c
    unfold getQueue
    cases hg : getKey? ep.frame_queues c with
    | none => simp
    | some q => exact hq (c, q) (getKey?_mem ep.frame_queues c q hg)
  obtain ⟨hcount, hbound⟩ := route_loop_spec frame ep.controller_ids
    ep.frame_queues ep.stats.dropped_frames hnodup hq'
  refine ⟨⟨ep.session_id, ep.device_id, ep.controller_ids,
      (route_loop frame ep.controller_ids ep.frame_queues
        ep.stats.dropped_frames).1,
      ⟨ep.stats.total_frames + 1, ep.stats.total_bytes + frame.length,
        (route_loop frame ep.controller_ids ep.frame_queues
          ep.stats.dropped_frames).2,
        ((ep.stats.total_bytes + frame.length : ℕ) : ℚ) /
          ((ep.stats.total_frames + 1 : ℕ) : ℚ)⟩⟩, ?_, ?_, ?_⟩
  · simp only [route_frame, hep]
    exact getKey?_setKey_self st sid _
  · exact hbound
  · exact hcount

/-- Witness for C4: one controller whose queue already has one frame. -/
theorem route_frame_queue_bound_witness :
    ∃ ep', getKey? (route_frame
        [("S", ⟨"S", "D", ["c1"], [("c1", [[7]])], ⟨1, 1, 0, 1⟩⟩)]
        "S" [8, 9]) "S" = some ep' ∧
      (∀ c, (getQueue ep'.frame_queues c).length ≤ MAX_QUEUE_SIZE) ∧
      ep'.stats.dropped_frames =
        (⟨1, 1, 0, 1⟩ : StreamStats).dropped_frames +
          (["c1"] : List String).countP
            (fun c => MAX_QUEUE_SIZE ≤
              (getQueue [("c1", [[7]])] c).length) :=
  route_frame_queue_bound
    [("S", ⟨"S", "D", ["c1"], [("c1", [[7]])], ⟨1, 1, 0, 1⟩⟩)] "S" [8, 9]
    ⟨"S", "D", ["c1"], [("c1", [[7]])], ⟨1, 1, 0, 1⟩⟩
    (by decide) (by decide) (by decide)

/-! Claim C5: token-bucket semantics and the window bound.  `allowSeq`
drives a sequence of `check_and_consume` calls for one composite key at
given call times and counts the grants. -/

theorem check_and_consume_found (st : RateLimiterState) (key : String)
    (cap rate t : ℚ) (b : Bucket) (hb : getKey? st key = some b) :
    check_and_consume st key cap rate t =
      if 1 ≤ min b.max_tokens (b.tokens + (t - b.last_update) * b.refill_rate)
      then (true, setKey st key
        ⟨min b.max_tokens (b.tokens + (t - b.last_update) * b.refill_rate) - 1,
          b.max_tokens, b.refill_rate, t⟩)
      else (false, setKey st key
        ⟨min b.max_tokens (b.tokens + (t - b.last_update) * b.refill_rate),
          b.max_tokens, b.refill_rate, t⟩) := by
  unfold check_and_consume refill_bucket
  rw [hb]

theorem check_and_consume_fresh_any (st : RateLimiterState) (key : String)
    (cap rate t : ℚ) (h : getKey? st key = none) :
    check_and_consume st key cap rate t =
      if 1 ≤ cap then (true, setKey st key ⟨cap - 1, cap, rate, t⟩)
      else (false, setKey st key ⟨cap, cap, rate, t⟩) := by
  unfold check_and_consume refill_bucket
  rw [h]
  simp

theorem allowSeq_bound (key : String) (cap rate T : ℚ)
    (hr : 0 ≤ rate) (hc : 0 ≤ cap) :
    ∀ (ts : List ℚ) (st : RateLimiterState) (b : Bucket),
      getKey? st key = some b →
      b.max_tokens = cap → b.refill_rate = rate → 0 ≤ b.tokens →
      List.Chain' (· ≤ ·) (b.last_update :: ts) →
      (∀ s ∈ ts, s ≤ T) → b.last_update ≤ T →
      ((allowSeq key cap rate st ts).1 : ℚ) ≤
        b.tokens + rate * (T - b.last_update) := by
  intro ts
  induction ts with
  | nil =>
      intro st b hb hmax hrr htok hchain hT huT
      have h0 : 0 ≤ rate * (T - b.last_update) :=
        mul_nonneg hr (by linarith)
      simp only [allowSeq, Nat.cast_zero]
      linarith
  | cons t ts ih =>
      intro st b hb hmax hrr htok hchain hT huT
      obtain ⟨hut, hchain'⟩ := List.chain'_cons.mp hchain
      have htT : t ≤ T := hT t (List.mem_cons_self t ts)
      have hTtail : ∀ s ∈ ts, s ≤ T :=
        fun s hs => hT s (List.mem_cons_of_mem t hs)
      set y := min b.max_tokens
        (b.tokens + (t - b.last_update) * b.refill_rate) with hy
      have hy0 : 0 ≤ y := by
        apply le_min
        · rw [hmax]; exact hc
        · have := mul_nonneg (sub_nonneg.mpr hut) (hrr ▸ hr)
          linarith
      have hyle : y ≤ b.tokens + (t - b.last_update) * rate := by
        rw [hy, hrr]
        exact min_le_right _ _
      by_cases hge : 1 ≤ y
      · have hstep := check_and_consume_found st key cap rate t b hb
        rw [← hy, if_pos hge] at hstep
        have hres : ((allowSeq key cap rate
            (setKey st key ⟨y - 1, b.max_tokens, b.refill_rate, t⟩)
            ts).1 : ℚ) ≤ (y - 1) + rate * (T - t) :=
          ih (setKey st key ⟨y - 1, b.max_tokens, b.refill_rate, t⟩)
            ⟨y - 1, b.max_tokens, b.refill_rate, t⟩
            (getKey?_setKey_self st key _) hmax hrr
            (show (0 : ℚ) ≤ y - 1 by linarith)
            (show List.Chain' (· ≤ ·) (t :: ts) from hchain') hTtail htT
        have hkey : b.tokens + (t - b.last_update) * rate +
            rate * (T - t) = b.tokens + rate * (T - b.last_update) := by ring
        simp only [allowSeq, hstep, if_true]
        push_cast
        linarith
      · have hstep := check_and_consume_found st key cap rate t b hb
        rw [← hy, if_neg hge] at hstep
        have hres : ((allowSeq key cap rate
            (setKey st key ⟨y, b.max_tokens, b.refill_rate, t⟩)
            ts).1 : ℚ) ≤ y + rate * (T - t) :=
          ih (setKey st key ⟨y, b.max_tokens, b.refill_rate, t⟩)
            ⟨y, b.max_tokens, b.refill_rate, t⟩
            (getKey?_setKey_self st key _) hmax hrr
            (show (0 : ℚ) ≤ y by linarith)
            (show List.Chain' (· ≤ ·) (t :: ts) from hchain') hTtail htT
        have hkey : b.tokens + (t - b.last_update) * rate +
            rate * (T - t) = b.tokens + rate * (T - b.last_update) := by ring
        simp only [allowSeq, hstep, if_false, Bool.false_eq_true]
        push_cast
        linarith

/-- C5: over any monotone window `[t0, t0 + Δ]`, a key's `allow` calls are
granted at most `cap + rate·Δ` times; and each call refills lazily (capping
tokens at capacity), returns `false` iff fewer than 1 token remain after
the refill, and on success stores the refilled bucket minus exactly one
token. -/
theorem rate_limiter_window_bound :
    (∀ (key : String) (cap rate t0 d : ℚ) (st : RateLimiterState)
        (ts : List ℚ),
      0 ≤ rate → 0 ≤ cap → 0 ≤ d →
      List.Chain' (· ≤ ·) ts →
      (∀ s ∈ ts, t0 ≤ s ∧ s ≤ t0 + d) →
      (∀ b, getKey? st key = some b →
        b.max_tokens = cap ∧ b.refill_rate = rate ∧ 0 ≤ b.tokens ∧
        (∀ s ∈ ts, b.last_update ≤ s)) →
      ((allowSeq key cap rate st ts).1 : ℚ) ≤ cap + rate * d) ∧
    (∀ (st : RateLimiterState) (key : String) (cap rate now : ℚ)
        (b0 : Bucket),
      b0 = (match getKey? st key with
            | some b => b
            | none => ⟨cap, cap, rate, now⟩) →
      (refill_bucket now b0).tokens =
        min b0.max_tokens
          (b0.tokens + (now - b0.last_update) * b0.refill_rate) ∧
      ((check_and_consume st key cap rate now).1 = false ↔
        (refill_bucket now b0).tokens < 1) ∧
      ((check_and_consume st key cap rate now).1 = true →
        getKey? (check_and_consume st key cap rate now).2 key =
          some ⟨(refill_bucket now b0).tokens - 1, b0.max_tokens,
            b0.refill_rate, now⟩)) := by
  constructor
  · intro key cap rate t0 d st ts hr hc hd hchain hwin hb
    set T := t0 + d with hT
    cases ts with
    | nil =>
        simp only [allowSeq, Nat.cast_zero]
        have := mul_nonneg hr hd
        linarith
    | cons t ts' =>
        obtain ⟨ht0, htT⟩ := hwin t (List.mem_cons_self t ts')
        have hwin' : ∀ s ∈ ts', s ≤ T :=
          fun s hs => (hwin s (List.mem_cons_of_mem t hs)).2
        have hrateΔ : rate * (T - t) ≤ rate * d :=
          mul_le_mul_of_nonneg_left (by linarith) hr
        cases hN : getKey? st key with
        | some b =>
            obtain ⟨hmax, hrr, htok, hlast⟩ := hb b hN
            have hut : b.last_update ≤ t :=
              hlast t (List.mem_cons_self t ts')
            set y := min b.max_tokens
              (b.tokens + (t - b.last_update) * b.refill_rate) with hy
            have hycap : y ≤ cap := by
              rw [hy, ← hmax]; exact min_le_left _ _
            have hy0 : 0 ≤ y := by
              apply le_min
              · rw [hmax]; exact hc
              · have := mul_nonneg (sub_nonneg.mpr hut) (hrr ▸ hr)
                linarith
            have hchain'' : List.Chain' (· ≤ ·) (t :: ts') := hchain
            by_cases hge : 1 ≤ y
            · have hstep := check_and_consume_found st key cap rate t b hN
              rw [← hy, if_pos hge] at hstep
              have hres : ((allowSeq key cap rate
                  (setKey st key ⟨y - 1, b.max_tokens, b.refill_rate, t⟩)
                  ts').1 : ℚ) ≤ (y - 1) + rate * (T - t) :=
                allowSeq_bound key cap rate T hr hc ts'
                  (setKey st key ⟨y - 1, b.max_tokens, b.refill_rate, t⟩)
                  ⟨y - 1, b.max_tokens, b.refill_rate, t⟩
                  (getKey?_setKey_self st key _) hmax hrr
                  (show (0 : ℚ) ≤ y - 1 by linarith)
                  (show List.Chain' (· ≤ ·) (t :: ts') from hchain'')
                  hwin' htT
              simp only [allowSeq, hstep, if_true]
              push_cast
              linarith
            · have hstep := check_and_consume_found st key cap rate t b hN
              rw [← hy, if_neg hge] at hstep
              have hres : ((allowSeq key cap rate
                  (setKey st key ⟨y, b.max_tokens, b.refill_rate, t⟩)
                  ts').1 : ℚ) ≤ y + rate * (T - t) :=
                allowSeq_bound key cap rate T hr hc ts'
                  (setKey st key ⟨y, b.max_tokens, b.refill_rate, t⟩)
                  ⟨y, b.max_tokens, b.refill_rate, t⟩
                  (getKey?_setKey_self st key _) hmax hrr
                  (show (0 : ℚ) ≤ y by linarith)
                  (show List.Chain' (· ≤ ·) (t :: ts') from hchain'')
                  hwin' htT
              simp only [allowSeq, hstep, if_false, Bool.false_eq_true]
              push_cast
              linarith
        | none =>
            have hchain'' : List.Chain' (· ≤ ·) (t :: ts') := hchain
            by_cases hge : 1 ≤ cap
            · have hstep := check_and_consume_fresh_any st key cap rate t hN
              rw [if_pos hge] at hstep
              have hres : ((allowSeq key cap rate
                  (setKey st key ⟨cap - 1, cap, rate, t⟩)
                  ts').1 : ℚ) ≤ (cap - 1) + rate * (T - t) :=
                allowSeq_bound key cap rate T hr hc ts'
                  (setKey st key ⟨cap - 1, cap, rate, t⟩)
                  ⟨cap - 1, cap, rate, t⟩
                  (getKey?_setKey_self st key _) rfl rfl
                  (show (0 : ℚ) ≤ cap - 1 by linarith)
                  (show List.Chain' (· ≤ ·) (t :: ts') from hchain'')
                  hwin' htT
              simp only [allowSeq, hstep, if_true]
              push_cast
              linarith
            · have hstep := check_and_consume_fresh_any st key cap rate t hN
              rw [if_neg hge] at hstep
              have hres : ((allowSeq key cap rate
                  (setKey st key ⟨cap, cap, rate, t⟩)
                  ts').1 : ℚ) ≤ cap + rate * (T - t) :=
                allowSeq_bound key cap rate T hr hc ts'
                  (setKey st key ⟨cap, cap, rate, t⟩)
                  ⟨cap, cap, rate, t⟩
                  (getKey?_setKey_self st key _) rfl rfl
                  (show (0 : ℚ) ≤ cap from hc)
                  (show List.Chain' (· ≤ ·) (t :: ts') from hchain'')
                  hwin' htT
              simp only [allowSeq, hstep, if_false, Bool.false_eq_true]
              push_cast
              linarith
  · intro st key cap rate now b0 hb0
    cases hN : getKey? st key with
    | some b =>
        have hb0' : b0 = b := by rw [hb0, hN]
        subst hb0'
        have hstep := check_and_consume_found st key cap rate now b0 hN
        refine ⟨rfl, ?_, ?_⟩
        · by_cases hge : 1 ≤ min b0.max_tokens
              (b0.tokens + (now - b0.last_update) * b0.refill_rate)
          · rw [if_pos hge] at hstep
            simp only [hstep, Bool.true_eq_false, false_iff, not_lt]
            exact hge
          · rw [if_neg hge] at hstep
            simp only [hstep]
            exact iff_of_true (by trivial) (not_le.mp hge)
        · intro htrue
          by_cases hge : 1 ≤ min b0.max_tokens
              (b0.tokens + (now - b0.last_update) * b0.refill_rate)
          · rw [if_pos hge] at hstep
            rw [hstep]
            exact getKey?_setKey_self st key _
          · rw [if_neg hge] at hstep
            rw [hstep] at htrue
            simp at htrue
    | none =>
        have hb0' : b0 = ⟨cap, cap, rate, now⟩ := by rw [hb0, hN]
        subst hb0'
        have hstep := check_and_consume_fresh_any st key cap rate now hN
        have hre : (refill_bucket now
            (⟨cap, cap, rate, now⟩ : Bucket)).tokens = cap := by
          simp [refill_bucket]
        refine ⟨rfl, ?_, ?_⟩
        · by_cases hge : (1 : ℚ) ≤ cap
          · rw [if_pos hge] at hstep
            simp only [hstep, Bool.true_eq_false, false_iff, not_lt, hre]
            exact hge
          · rw [if_neg hge] at hstep
            simp only [hstep, hre]
            exact iff_of_true (by trivial) (not_le.mp hge)
        · intro htrue
          by_cases hge : (1 : ℚ) ≤ cap
          · rw [if_pos hge] at hstep
            rw [hstep]
            have := getKey?_setKey_self st key
              (⟨cap - 1, cap, rate, now⟩ : Bucket)
            simpa [hre] using this
          · rw [if_neg hge] at hstep
            rw [hstep] at htrue
            simp at htrue

/-- Witness for C5: three calls at times 0, 1, 2 in the window `[0, 2]`
with capacity 2 and refill rate 1 grant at most `2 + 1·2` times. -/
theorem rate_limiter_window_bound_witness :
    ((allowSeq "k:touch" 2 1 [] [0, 1, 2]).1 : ℚ) ≤ 2 + 1 * 2 :=
  rate_limiter_window_bound.1 "k:touch" 2 1 0 2 [] [0, 1, 2]
    (by norm_num) (by norm_num) (by norm_num)
    (by norm_num [List.chain'_cons])
    (by intro s hs; fin_cases hs <;> norm_num)
    (by intro b hcontra; simp at hcontra)

end Arcs
